import Mathlib

/-!
Shallow embedding of the apex-global-careers application status engine.

The repository contains two parallel implementations of the document-review
state machine:

* a MongoDB-backed router (first router of `src/server/routes/application.js`),
  operating on `Application` documents with `documentStatus` /
  `documentReviews` / `documentRejectionCount` maps, and

* a JSON-metadata router (second router of `src/server/models/Editing.js`),
  operating on per-applicant `metadata.json` records.

In addition, the second router of `src/server/routes/application.js` implements
the editing-service sub-flow (`editing-metadata.json` records, payment
verification and one-time download tokens).

All three are embedded below as pure functions on explicit record types.
Timestamps are abstracted as natural numbers, file-system existence as a
boolean predicate, and the random download token as an explicit parameter.
-/

namespace Apex

/-- Document kinds tracked by the application routes
    (`passport`, `photo`, `cv`, `coverLetter`, `qualifications`,
    `experience`, `documents`). -/
inductive DocKind where
  | passport
  | photo
  | cv
  | coverLetter
  | qualifications
  | experience
  | documents
deriving DecidableEq, Repr

/-- The JavaScript field name of a document kind. -/
def kindName : DocKind → String
  | .passport => "passport"
  | .photo => "photo"
  | .cv => "cv"
  | .coverLetter => "coverLetter"
  | .qualifications => "qualifications"
  | .experience => "experience"
  | .documents => "documents"

/-- Rank of each kind in JavaScript lexicographic order of its field name,
    so that sorting by this rank agrees with `Array.prototype.sort()`
    on the corresponding strings. -/
def kindIdx : DocKind → Nat
  | .coverLetter => 0
  | .cv => 1
  | .documents => 2
  | .experience => 3
  | .passport => 4
  | .photo => 5
  | .qualifications => 6

/-- Insertion step of the sort used to compare document-kind lists. -/
def insertKind (k : DocKind) : List DocKind → List DocKind
  | [] => [k]
  | k' :: rest =>
    if kindIdx k ≤ kindIdx k' then k :: k' :: rest else k' :: insertKind k rest

/-- Sorting a document-kind list, modelling `documents.sort()` in the
    deduplication checks (`JSON.stringify(a.sort()) === JSON.stringify(b.sort())`). -/
def sortKinds (l : List DocKind) : List DocKind := l.foldr insertKind []

/-- Setting a key in an association list: replaces the value at the first
    occurrence of the key, else appends.  This models both `Map.prototype.set`
    and JavaScript object key assignment (insertion order preserved). -/
def setA {α β : Type} [DecidableEq α] : List (α × β) → α → β → List (α × β)
  | [], k, v => [(k, v)]
  | (k', v') :: rest, k, v =>
    if k' = k then (k, v) :: rest else (k', v') :: setA rest k v

/-- Lookup in an association list, modelling `Map.prototype.get` /
    JavaScript object property access (`undefined` becomes `none`). -/
def getA {α β : Type} [DecidableEq α] : List (α × β) → α → Option β
  | [], _ => none
  | (k', v') :: rest, k => if k' = k then some v' else getA rest k

/-- Deleting a key from an association list, modelling `Map.prototype.delete`. -/
def eraseA {α β : Type} [DecidableEq α] (l : List (α × β)) (k : α) : List (α × β) :=
  l.filter (fun p => decide (p.1 ≠ k))

/-- One uploaded file record as stored in `uploadedFiles[kind]`
    (`fileSchema` plus the per-file review fields the review route writes). -/
structure FileRec where
  filename : String
  size : Nat
  uploadNumber : Nat
  status : String
  reviewComments : Option String
deriving DecidableEq, Repr

/-- One entry of the MongoDB `documentReviews` map (`documentReviewSchema`
    as written by the admin review route). -/
structure MongoReview where
  status : String
  comments : Option String
  reviewedAt : Nat
  reviewedBy : String
deriving DecidableEq, Repr

/-- One entry of the `comments` log. -/
structure CommentRec where
  text : String
  timestamp : Nat
  user : String
  ctype : String
deriving DecidableEq, Repr

/-- One entry of `reuploadRequests` (`reuploadRequestSchema`). -/
structure ReuploadReq where
  documents : List DocKind
  message : String
  requestedAt : Nat
  status : String
  completedAt : Option Nat
  rejectionCount : List (DocKind × Nat)
deriving DecidableEq, Repr

/-- Job preference fields (`jobPreferencesSchema`). -/
structure JobPrefs where
  preferredCountry : String
  preferredJob : String
  additionalInfo : String
deriving DecidableEq, Repr

/-- The MongoDB `Application` document, restricted to the fields the
    embedded routes read or write. -/
structure MongoApp where
  status : String
  uploadCount : Nat
  uploadedFiles : List (DocKind × List FileRec)
  documentReviews : List (DocKind × MongoReview)
  documentStatus : List (DocKind × String)
  documentRejectionCount : List (DocKind × Nat)
  comments : List CommentRec
  reuploadRequests : List ReuploadReq
  jobPreferences : Option JobPrefs
  uploadHistory : List (Nat × List DocKind)
  lastUploadAt : Option Nat
deriving DecidableEq, Repr

/-- The six kinds the MongoDB review route iterates over in its
    `requiredDocs` list when deriving the overall status. -/
def mongoTrackedDocs : List DocKind :=
  [.passport, .photo, .cv, .coverLetter, .qualifications, .experience]

/-- POST `/admin/application/:email/document/review` (MongoDB router):
    records the review, mirrors it into `documentStatus` and the per-file
    statuses, bumps the rejection count on a rejection, then derives the
    overall status from the `documentStatus` map. -/
def mongoReview (r : MongoApp) (dt : DocKind) (st : String) (cm : Option String)
    (now : Nat) : MongoApp :=
  let reviews := setA r.documentReviews dt
    { status := st, comments := cm, reviewedAt := now, reviewedBy := "admin" }
  let docStatus := setA r.documentStatus dt st
  let files := r.uploadedFiles.map fun p =>
    if p.1 = dt then (p.1, p.2.map fun f => { f with status := st, reviewComments := cm })
    else p
  let cur := (getA r.documentRejectionCount dt).getD 0
  let rejCount :=
    if st = "rejected" then setA r.documentRejectionCount dt (cur + 1)
    else r.documentRejectionCount
  let rejText : String :=
    "Document " ++ kindName dt ++ " rejected: " ++ cm.getD "No reason provided" ++
      " (Attempt " ++ toString (cur + 1) ++ "/3)"
  let apprText : String := "Document " ++ kindName dt ++ " approved"
  let cmts :=
    if st = "rejected" then
      r.comments ++ [{ text := rejText, timestamp := now, user := "Admin", ctype := "system" }]
    else if st = "approved" then
      r.comments ++ [{ text := apprText, timestamp := now, user := "Admin", ctype := "system" }]
    else r.comments
  let allApproved := mongoTrackedDocs.all fun d => getA docStatus d == some "approved"
  let allRejected := mongoTrackedDocs.all fun d => getA docStatus d == some "rejected"
  let approveFired := allApproved && !(r.status == "documents-approved")
  let approvedCmt : CommentRec :=
    { text := "All documents approved - Application ready for processing",
      timestamp := now, user := "System", ctype := "system" }
  let changesCmt : CommentRec :=
    { text := "Changes required - Some documents need revision",
      timestamp := now, user := "System", ctype := "system" }
  let st1 := if approveFired then "documents-approved" else r.status
  let cmts1 := if approveFired then cmts ++ [approvedCmt] else cmts
  let hasRejections := docStatus.any fun p => p.2 == "rejected"
  let changesFired := !allApproved && !allRejected && hasRejections && !(st1 == "changes-required")
  let st2 := if changesFired then "changes-required" else st1
  let cmts2 := if changesFired then cmts1 ++ [changesCmt] else cmts1
  { r with
    documentReviews := reviews, documentStatus := docStatus, uploadedFiles := files,
    documentRejectionCount := rejCount, comments := cmts2, status := st2 }

/-- Failure modes of the existing-record upload path of POST `/upload`. -/
inductive UploadErr where
  | maxUploads
  | noFiles
deriving DecidableEq, Repr

/-- JavaScript object spread `\x7b...old, ...new\x7d` on the per-kind file map:
    keys of the new object override in place, fresh keys are appended. -/
def mergeFiles (old new : List (DocKind × List FileRec)) : List (DocKind × List FileRec) :=
  new.foldl (fun acc p => setA acc p.1 p.2) old

/-- POST `/upload` (MongoDB router), existing-record path: rejects the
    attempt once the incremented count exceeds 3, otherwise spread-merges the
    new per-kind file lists over the old map, appends an upload-history entry,
    optionally updates job preferences, and resets the status to received. -/
def mongoSubmitUpload (r : MongoApp) (newFiles : List (DocKind × List FileRec))
    (pc pj ai : Option String) (now : Nat) : Except UploadErr MongoApp :=
  let uploadCount := r.uploadCount + 1
  if uploadCount > 3 then .error .maxUploads
  else if newFiles.isEmpty then .error .noFiles
  else
    let prefs :=
      if pc.isSome || pj.isSome || ai.isSome then
        let base := r.jobPreferences.getD
          { preferredCountry := "", preferredJob := "", additionalInfo := "" }
        some { preferredCountry := pc.getD base.preferredCountry,
               preferredJob := pj.getD base.preferredJob,
               additionalInfo := ai.getD base.additionalInfo }
      else r.jobPreferences
    .ok { r with
      uploadedFiles := mergeFiles r.uploadedFiles newFiles,
      uploadCount := uploadCount,
      uploadHistory := r.uploadHistory ++ [(now, newFiles.map Prod.fst)],
      lastUploadAt := some now,
      jobPreferences := prefs,
      status := "received" }

/-- POST `/admin/application/:email/request-reupload` (MongoDB router):
    unconditionally sets the status and appends a pending request —
    there is no rejected-document validation and no deduplication. -/
def mongoRequestReupload (r : MongoApp) (docs : List DocKind) (msg : String)
    (now : Nat) : MongoApp :=
  let reqText : String :=
    "Re-upload requested for: " ++ String.intercalate ", " (docs.map kindName) ++
      ". Message: " ++ msg
  { r with
    status := "reupload-requested",
    reuploadRequests := r.reuploadRequests ++
      [{ documents := docs, message := msg, requestedAt := now,
         status := "pending", completedAt := none, rejectionCount := [] }],
    comments := r.comments ++
      [{ text := reqText, timestamp := now, user := "Admin", ctype := "system" }] }

/-- Events of the MongoDB application routes used by the invariant claims. -/
inductive AppEvent where
  | review (dt : DocKind) (st : String) (cm : Option String) (now : Nat)
  | upload (newFiles : List (DocKind × List FileRec)) (pc pj ai : Option String) (now : Nat)
deriving Repr

/-- One request of the MongoDB router applied to the stored record;
    a failed upload leaves the stored record unchanged. -/
def mongoStep (r : MongoApp) (e : AppEvent) : MongoApp :=
  match e with
  | .review dt st cm now => mongoReview r dt st cm now
  | .upload nf pc pj ai now =>
    match mongoSubmitUpload r nf pc pj ai now with
    | .ok r' => r'
    | .error _ => r

/-- The stored rejection count of a kind (`documentRejectionCount.get(k) || 0`). -/
def rejCountM (r : MongoApp) (k : DocKind) : Nat :=
  (getA r.documentRejectionCount k).getD 0

/-- One entry of `documentReviews` in the JSON `metadata.json` records
    written by the review route of the second router. -/
structure JReview where
  status : String
  comments : String
  reviewedAt : Nat
  reviewedBy : String
  rejectionCount : Nat
deriving DecidableEq, Repr

/-- The JSON `metadata.json` record of one applicant, restricted to the
    fields the embedded routes read or write. -/
structure JMeta where
  status : String
  uploadedFiles : List (DocKind × List FileRec)
  documentReviews : List (DocKind × JReview)
  documentRejectionCount : List (DocKind × Nat)
  reuploadRequests : List ReuploadReq
deriving DecidableEq, Repr

/-- Required document set for overall approval in the JSON review route. -/
def requiredDocs : List DocKind := [.passport, .photo, .cv, .qualifications]

/-- Optional kinds that only count when present in `uploadedFiles`. -/
def optionalDocs : List DocKind := [.coverLetter, .experience]

/-- The review status recorded for a kind, as the route reads it
    (`documentReviews[doc]?.status`). -/
def jReviewStatus (reviews : List (DocKind × JReview)) (d : DocKind) : Option String :=
  (getA reviews d).map JReview.status

/-- The rejection-count map after a review decision: a rejection increments
    the reviewed kind's count (`documentRejectionCount[documentType] =
    (prev || 0) + 1`), anything else leaves the map unchanged. -/
def jrRC (m : JMeta) (dt : DocKind) (st : String) : List (DocKind × Nat) :=
  if st = "rejected" then
    setA m.documentRejectionCount dt (((getA m.documentRejectionCount dt).getD 0) + 1)
  else m.documentRejectionCount

/-- The review entry written for the reviewed kind. -/
def jrNewReview (m : JMeta) (dt : DocKind) (st cm : String) (now : Nat) : JReview :=
  { status := st, comments := cm, reviewedAt := now, reviewedBy := "Admin",
    rejectionCount := (getA (jrRC m dt st) dt).getD 0 }

/-- The `documentReviews` map after recording the review. -/
def jrReviews (m : JMeta) (dt : DocKind) (st cm : String) (now : Nat) :
    List (DocKind × JReview) :=
  setA m.documentReviews dt (jrNewReview m dt st cm now)

/-- Whether any recorded review is a rejection
    (`Object.values(reviews).some(r => r.status === 'rejected')`). -/
def jrHasRejections (m : JMeta) (dt : DocKind) (st cm : String) (now : Nat) : Bool :=
  (jrReviews m dt st cm now).any fun p => p.2.status == "rejected"

/-- The kinds whose review status is rejected, in map insertion order
    (`Object.keys(reviews).filter(...)`). -/
def jrDocsNeeding (m : JMeta) (dt : DocKind) (st cm : String) (now : Nat) : List DocKind :=
  ((jrReviews m dt st cm now).filter fun p => p.2.status == "rejected").map Prod.fst

/-- Whether a pending request with the same sorted kind list already exists. -/
def jrHasPending (m : JMeta) (dt : DocKind) (st cm : String) (now : Nat) : Bool :=
  m.reuploadRequests.any fun q =>
    q.status == "pending" &&
      sortKinds q.documents == sortKinds (jrDocsNeeding m dt st cm now)

/-- The re-upload request appended when a rejection has no matching pending
    request. -/
def jrNewReq (m : JMeta) (dt : DocKind) (st cm : String) (now : Nat) : ReuploadReq :=
  { documents := jrDocsNeeding m dt st cm now,
    message := if cm = "" then "Please update the following documents" else cm,
    requestedAt := now, status := "pending", completedAt := none,
    rejectionCount := (jrDocsNeeding m dt st cm now).map fun d =>
      (d, let c := (getA (jrRC m dt st) d).getD 0; if c = 0 then 1 else c) }

/-- Whether every required document's review is approved. -/
def jrAllReq (m : JMeta) (dt : DocKind) (st cm : String) (now : Nat) : Bool :=
  requiredDocs.all fun d => jReviewStatus (jrReviews m dt st cm now) d == some "approved"

/-- Whether every optional document is absent from the uploads or approved. -/
def jrOptOk (m : JMeta) (dt : DocKind) (st cm : String) (now : Nat) : Bool :=
  optionalDocs.all fun d =>
    !(getA m.uploadedFiles d).isSome ||
      jReviewStatus (jrReviews m dt st cm now) d == some "approved"

/-- The derived overall status after the review. -/
def jrStatus (m : JMeta) (dt : DocKind) (st cm : String) (now : Nat) : String :=
  if jrHasRejections m dt st cm now then "changes-required"
  else if jrAllReq m dt st cm now && jrOptOk m dt st cm now then "documents-approved"
  else if m.status ≠ "changes-required" then "review"
  else m.status

/-- The request list after the status derivation, before the final prune:
    a rejection appends the deduplicated new request; full approval marks all
    pending requests completed; otherwise the list is unchanged. -/
def jrReqs1 (m : JMeta) (dt : DocKind) (st cm : String) (now : Nat) : List ReuploadReq :=
  if jrHasRejections m dt st cm now then
    if !(jrDocsNeeding m dt st cm now).isEmpty && !jrHasPending m dt st cm now then
      m.reuploadRequests ++ [jrNewReq m dt st cm now]
    else m.reuploadRequests
  else if jrAllReq m dt st cm now && jrOptOk m dt st cm now then
    m.reuploadRequests.map fun q =>
      if q.status = "pending" then { q with status := "completed", completedAt := some now }
      else q
  else m.reuploadRequests

/-- POST `/application/:email/document/review` (JSON router of
    `Editing.js`): records the review and the rejection count, derives the
    overall status and the request list, then prunes: only pending requests
    with at least one still-rejected document survive the final filter. -/
def jsonReview (m : JMeta) (dt : DocKind) (st : String) (cm : String) (now : Nat) : JMeta :=
  { m with
    status := jrStatus m dt st cm now,
    documentReviews := jrReviews m dt st cm now,
    documentRejectionCount := jrRC m dt st,
    reuploadRequests := (jrReqs1 m dt st cm now).filter fun q =>
      if q.status == "pending" then
        q.documents.any fun d =>
          jReviewStatus (jrReviews m dt st cm now) d == some "rejected"
      else true }

/-- POST `/application/:email/request-reupload` (JSON router of
    `Editing.js`): keeps only the requested kinds whose review status is
    rejected, fails when none remain, deduplicates against an existing
    pending request with the same sorted kind list, and sets the overall
    status to `reupload-requested`. -/
def jsonRequestReupload (m : JMeta) (docs : List DocKind) (msg : String)
    (now : Nat) : Except String JMeta :=
  let rejectedDocs := docs.filter fun d => jReviewStatus m.documentReviews d == some "rejected"
  if rejectedDocs.isEmpty then
    .error "No rejected documents selected for re-upload"
  else
    let dup := m.reuploadRequests.any fun q =>
      q.status == "pending" && sortKinds q.documents == sortKinds rejectedDocs
    let reqs :=
      if dup then m.reuploadRequests
      else m.reuploadRequests ++
        [{ documents := rejectedDocs, message := msg, requestedAt := now,
           status := "pending", completedAt := none, rejectionCount := [] }]
    .ok { m with reuploadRequests := reqs, status := "reupload-requested" }

/-- Events of the JSON metadata routes used by the invariant claims. -/
inductive JEvent where
  | review (dt : DocKind) (st : String) (cm : String) (now : Nat)
  | reqReupload (docs : List DocKind) (msg : String) (now : Nat)
deriving Repr

/-- One request of the JSON router applied to the stored metadata record;
    a rejected re-upload request leaves the record unchanged. -/
def jsonStep (m : JMeta) (e : JEvent) : JMeta :=
  match e with
  | .review dt st cm now => jsonReview m dt st cm now
  | .reqReupload docs msg now =>
    match jsonRequestReupload m docs msg now with
    | .ok m' => m'
    | .error _ => m

/-- The stored rejection count of a kind in a JSON metadata record. -/
def rejCountJ (m : JMeta) (k : DocKind) : Nat :=
  (getA m.documentRejectionCount k).getD 0

/-- An edited deliverable (`editedFiles.cv.final` / `editedFiles.cover.final`). -/
structure EFile where
  filename : String
  path : String
deriving DecidableEq, Repr

/-- Verified-payment details stored by `/verify-payment/:email`. -/
structure PayDetails where
  transactionId : Option String
  amount : Option String
  verifiedAt : Nat
deriving DecidableEq, Repr

/-- The `editing-metadata.json` record of the editing-service sub-flow,
    restricted to the fields the embedded routes read or write. -/
structure EMeta where
  serviceType : String
  status : String
  paymentStatus : String
  pendingTransaction : Option String
  paymentDetails : Option PayDetails
  editedCv : Option EFile
  editedCover : Option EFile
deriving DecidableEq, Repr

/-- POST `/submit-payment/:email` (editing router): stores the client's
    transaction id for later admin verification; the status is untouched. -/
def submitPayment (m : EMeta) (tid : String) : EMeta :=
  { m with pendingTransaction := some tid }

/-- POST `/upload-edited/:email` (editing router): records the uploaded
    deliverables and sets the status to `editing_completed` exactly when every
    deliverable required by the service type is present, else
    `editing_in_progress`. -/
def uploadEdited (m : EMeta) (cvF coverF : Option EFile) : EMeta :=
  let m1 := match cvF with
    | some f => { m with editedCv := some f }
    | none => m
  let m2 := match coverF with
    | some f => { m1 with editedCover := some f }
    | none => m1
  let all1 :=
    if (m2.serviceType == "cv" || m2.serviceType == "both") && m2.editedCv.isNone then false
    else true
  let allUploaded :=
    if (m2.serviceType == "cover" || m2.serviceType == "both") && m2.editedCover.isNone then false
    else all1
  { m2 with status := if allUploaded then "editing_completed" else "editing_in_progress" }

/-- POST `/verify-payment/:email` (editing router): unconditionally marks
    the payment as paid, sets the status to `editing_paid`, stores the payment
    details (falling back to the pending transaction id) and clears the
    pending transaction. -/
def verifyPayment (m : EMeta) (tid amt : Option String) (now : Nat) : EMeta :=
  { m with
    paymentStatus := "paid",
    status := "editing_paid",
    paymentDetails := some
      { transactionId := match tid with
          | some t => some t
          | none => m.pendingTransaction,
        amount := amt, verifiedAt := now },
    pendingTransaction := none }

/-- Requests of the editing router that mutate an existing
    `editing-metadata.json` record. -/
inductive EditOp where
  | submitPay (tid : String)
  | uploadEd (cvF coverF : Option EFile)
  | verifyPay (tid amt : Option String) (now : Nat)
deriving Repr

/-- One mutating request of the editing router applied to the record. -/
def editStep (m : EMeta) (op : EditOp) : EMeta :=
  match op with
  | .submitPay tid => submitPayment m tid
  | .uploadEd cvF coverF => uploadEdited m cvF coverF
  | .verifyPay tid amt now => verifyPayment m tid amt now

/-- One entry of the in-memory `downloadTokens` map. -/
structure TokenData where
  email : String
  expiresAt : Nat
  used : Bool
  cvPath : Option String
  coverPath : Option String
deriving DecidableEq, Repr

/-- The token store (`downloadTokens`), keyed by the random token string. -/
abbrev TokenStore := List (String × TokenData)

/-- POST `/generate-download-token/:email`: refuses with 403 unless the
    payment has been verified, else mints a one-hour token pointing at the
    final deliverable paths.  The random token string is a parameter. -/
def genToken (m : EMeta) (em tok : String) (now : Nat) (store : TokenStore) :
    Except String TokenStore :=
  if m.paymentStatus ≠ "paid" then .error "Payment not verified"
  else
    .ok (setA store tok
      { email := em, expiresAt := now + 60 * 60 * 1000, used := false,
        cvPath := m.editedCv.map EFile.path,
        coverPath := m.editedCover.map EFile.path })

/-- The file path a token serves for a requested type (`tokenData.files[type]`). -/
def tokenFileFor (td : TokenData) (ty : String) : Option String :=
  if ty = "cv" then td.cvPath
  else if ty = "cover" then td.coverPath
  else none

/-- GET `/download/:token/:type`: rejects missing, used or expired tokens;
    deletes the token and rejects when the file is absent; otherwise deletes
    the token and serves the file path.  Returns the updated store together
    with the outcome; file-system existence is the predicate `fileExists`. -/
def downloadFile (store : TokenStore) (fileExists : String → Bool) (now : Nat)
    (tok ty : String) : TokenStore × Except String String :=
  match getA store tok with
  | none => (store, .error "Invalid or expired token")
  | some td =>
    if td.used then (store, .error "Invalid or expired token")
    else if td.expiresAt < now then (store, .error "Invalid or expired token")
    else
      match tokenFileFor td ty with
      | none => (eraseA store tok, .error "File not found")
      | some p =>
        if fileExists p then (eraseA store tok, .ok p)
        else (eraseA store tok, .error "File not found")

/-- A pending file record used by the concrete test states below. -/
def fileA : FileRec :=
  { filename := "cv_a.pdf", size := 10, uploadNumber := 1, status := "pending",
    reviewComments := none }

/-- A second file record, distinct from `fileA`. -/
def fileB : FileRec :=
  { filename := "cv_b.pdf", size := 20, uploadNumber := 2, status := "pending",
    reviewComments := none }

/-- A fresh MongoDB application record with the four required kinds uploaded
    and no reviews yet. -/
def recFresh : MongoApp :=
  { status := "received", uploadCount := 1,
    uploadedFiles :=
      [(.passport, [fileA]), (.photo, [fileA]), (.cv, [fileA]), (.qualifications, [fileA])],
    documentReviews := [], documentStatus := [], documentRejectionCount := [],
    comments := [], reuploadRequests := [], jobPreferences := none,
    uploadHistory := [], lastUploadAt := none }

/-- A MongoDB record whose upload cap has been reached. -/
def recAtCap : MongoApp :=
  { recFresh with uploadCount := 3 }

/-- A MongoDB record holding one prior passport file, used to exercise the
    spread-merge of a re-upload. -/
def recOnePassport : MongoApp :=
  { recFresh with uploadedFiles := [(.passport, [fileA])] }

/-- A MongoDB record with five of the six tracked kinds already rejected. -/
def recFiveRejected : MongoApp :=
  { recFresh with
    status := "review",
    documentStatus :=
      [(.passport, "rejected"), (.photo, "rejected"), (.cv, "rejected"),
       (.coverLetter, "rejected"), (.qualifications, "rejected")] }

/-- A MongoDB record with an existing pending re-upload request for the
    passport and no rejected reviews at all. -/
def recPendingNoRejects : MongoApp :=
  { recFresh with
    reuploadRequests :=
      [{ documents := [.passport], message := "old", requestedAt := 1,
         status := "pending", completedAt := none, rejectionCount := [] }] }

/-- A fresh JSON metadata record with the four required kinds uploaded. -/
def jmFresh : JMeta :=
  { status := "received",
    uploadedFiles :=
      [(.passport, [fileA]), (.photo, [fileA]), (.cv, [fileA]), (.qualifications, [fileA])],
    documentReviews := [], documentRejectionCount := [], reuploadRequests := [] }

/-- A JSON metadata record in `changes-required` after a passport rejection,
    carrying the matching pending re-upload request. -/
def jmPassportRejected : JMeta :=
  { status := "changes-required",
    uploadedFiles := [(.passport, [fileA]), (.photo, [fileA])],
    documentReviews :=
      [(.passport, { status := "rejected", comments := "blurry", reviewedAt := 1,
                     reviewedBy := "Admin", rejectionCount := 1 })],
    documentRejectionCount := [(.passport, 1)],
    reuploadRequests :=
      [{ documents := [.passport], message := "blurry", requestedAt := 1,
         status := "pending", completedAt := none, rejectionCount := [] }] }

/-- A JSON metadata record where the cv was rejected and the required kinds
    other than the cv are already approved. -/
def jmCvRejected : JMeta :=
  { status := "changes-required",
    uploadedFiles :=
      [(.passport, [fileA]), (.photo, [fileA]), (.cv, [fileA]), (.qualifications, [fileA])],
    documentReviews :=
      [(.passport, { status := "approved", comments := "", reviewedAt := 1,
                     reviewedBy := "Admin", rejectionCount := 0 }),
       (.photo, { status := "approved", comments := "", reviewedAt := 1,
                  reviewedBy := "Admin", rejectionCount := 0 }),
       (.qualifications, { status := "approved", comments := "", reviewedAt := 1,
                           reviewedBy := "Admin", rejectionCount := 0 }),
       (.cv, { status := "rejected", comments := "blurry", reviewedAt := 1,
               reviewedBy := "Admin", rejectionCount := 1 })],
    documentRejectionCount := [(.cv, 1)],
    reuploadRequests :=
      [{ documents := [.cv], message := "blurry", requestedAt := 1,
         status := "pending", completedAt := none, rejectionCount := [] }] }

/-- An editing-service record that is completed but entirely unpaid:
    no pending transaction was ever submitted. -/
def emNoPending : EMeta :=
  { serviceType := "cv", status := "editing_completed", paymentStatus := "pending",
    pendingTransaction := none, paymentDetails := none,
    editedCv := some { filename := "final_cv.pdf", path := "p/final_cv.pdf" },
    editedCover := none }

/-- The editing-service record `emNoPending` after payment verification. -/
def emPaid : EMeta :=
  { emNoPending with paymentStatus := "paid", status := "editing_paid" }

end Apex

namespace Apex

theorem getA_setA_self {α β : Type} [DecidableEq α] (l : List (α × β)) (k : α) (v : β) :
    getA (setA l k v) k = some v := by
  induction l with
  | nil => simp [setA, getA]
  | cons p rest ih =>
    by_cases h : p.1 = k
    · simp [setA, getA, h]
    · simp [setA, getA, h, ih]

theorem getA_setA_ne {α β : Type} [DecidableEq α] (l : List (α × β)) (k k' : α) (v : β)
    (h : k' ≠ k) : getA (setA l k v) k' = getA l k' := by
  induction l with
  | nil => simp [setA, getA, Ne.symm h]
  | cons p rest ih =>
    by_cases hp : p.1 = k
    · simp [setA, getA, hp, Ne.symm h]
    · by_cases hq : p.1 = k'
      · simp [setA, getA, hp, hq, h]
      · simp [setA, getA, hp, hq, ih]

theorem getA_eraseA_self {α β : Type} [DecidableEq α] (l : List (α × β)) (k : α) :
    getA (eraseA l k) k = none := by
  induction l with
  | nil => simp [eraseA, getA]
  | cons p rest ih =>
    by_cases h : p.1 = k
    · simpa [eraseA, getA, h] using ih
    · simpa [eraseA, getA, h] using ih

theorem mem_setA_self {α β : Type} [DecidableEq α] (l : List (α × β)) (k : α) (v : β) :
    (k, v) ∈ setA l k v := by
  induction l with
  | nil => simp [setA]
  | cons p rest ih =>
    by_cases h : p.1 = k
    · simp [setA, h]
    · simp [setA, h]
      right
      exact ih

theorem mem_setA {α β : Type} [DecidableEq α] {l : List (α × β)} {k : α} {v : β}
    {p : α × β} (h : p ∈ setA l k v) : p = (k, v) ∨ p ∈ l := by
  induction l with
  | nil => simpa [setA] using h
  | cons q rest ih =>
    by_cases hq : q.1 = k
    · simp [setA, hq] at h
      rcases h with h | h
      · exact Or.inl (by simp [h])
      · exact Or.inr (List.mem_cons_of_mem _ h)
    · simp [setA, hq] at h
      rcases h with h | h
      · exact Or.inr (List.mem_cons.mpr (Or.inl (by simp [h])))
      · rcases ih h with h' | h'
        · exact Or.inl h'
        · exact Or.inr (List.mem_cons_of_mem _ h')

theorem getA_eq_none_of_not_mem {α β : Type} [DecidableEq α] {l : List (α × β)} {k : α}
    (h : k ∉ l.map Prod.fst) : getA l k = none := by
  induction l with
  | nil => simp [getA]
  | cons p rest ih =>
    have h1 : ¬ p.1 = k := by
      intro hh
      exact h (by simp [hh])
    have h2 : k ∉ rest.map Prod.fst := by
      intro hk
      exact h (by simp [hk])
    simp [getA, h1, ih h2]

theorem rejCountM_mongoStep_le (r : MongoApp) (e : AppEvent) (k : DocKind) :
    rejCountM r k ≤ rejCountM (mongoStep r e) k := by
  cases e with
  | review dt st cm now =>
    simp only [mongoStep, mongoReview, rejCountM]
    by_cases hst : st = "rejected"
    · by_cases hk : k = dt
      · subst hk
        simp [hst, getA_setA_self]
      · simp [hst, getA_setA_ne _ _ _ _ hk]
    · simp [hst]
  | upload nf pc pj ai now =>
    simp only [mongoStep, mongoSubmitUpload]
    by_cases hgt : r.uploadCount + 1 > 3
    · simp [hgt]
    · by_cases hnf : nf.isEmpty
      · simp [hgt, hnf]
      · simp [hgt, hnf, rejCountM]

theorem rejCountJ_jsonReview_le (m : JMeta) (dt : DocKind) (st : String) (cm : String)
    (now : Nat) (k : DocKind) :
    rejCountJ m k ≤ rejCountJ (jsonReview m dt st cm now) k := by
  by_cases hst : st = "rejected"
  · subst hst
    by_cases hk : k = dt
    · subst hk
      have h1 : rejCountJ (jsonReview m k "rejected" cm now) k =
          ((getA m.documentRejectionCount k).getD 0) + 1 := by
        simp [jsonReview, jrRC, rejCountJ, getA_setA_self]
      rw [h1]
      exact Nat.le_succ _
    · have h1 : rejCountJ (jsonReview m dt "rejected" cm now) k = rejCountJ m k := by
        simp [jsonReview, jrRC, rejCountJ, getA_setA_ne _ _ _ _ hk]
      rw [h1]
  · have h1 : rejCountJ (jsonReview m dt st cm now) k = rejCountJ m k := by
      simp [jsonReview, jrRC, rejCountJ, hst]
    rw [h1]

theorem rejCountJ_jsonStep_le (m : JMeta) (e : JEvent) (k : DocKind) :
    rejCountJ m k ≤ rejCountJ (jsonStep m e) k := by
  cases e with
  | review dt st cm now => exact rejCountJ_jsonReview_le m dt st cm now k
  | reqReupload docs msg now =>
    simp only [jsonStep, jsonRequestReupload]
    by_cases hre :
        (docs.filter fun d => jReviewStatus m.documentReviews d == some "rejected").isEmpty
    · simp [hre]
    · simp [hre, rejCountJ]

/-- C9: across any sequence of review and upload events, in both the MongoDB
    and the JSON implementations, the per-kind rejection count never
    decreases; a rejected decision increments the reviewed kind's count by
    exactly one and an approved decision leaves every count unchanged. -/
theorem claim_C9_rejection_count_monotone :
    (∀ (r : MongoApp) (evs : List AppEvent) (k : DocKind),
      rejCountM r k ≤ rejCountM (List.foldl mongoStep r evs) k) ∧
    (∀ (r : MongoApp) (dt : DocKind) (cm : Option String) (now : Nat),
      rejCountM (mongoReview r dt "rejected" cm now) dt = rejCountM r dt + 1) ∧
    (∀ (r : MongoApp) (dt k : DocKind) (cm : Option String) (now : Nat),
      rejCountM (mongoReview r dt "approved" cm now) k = rejCountM r k) ∧
    (∀ (m : JMeta) (evs : List JEvent) (k : DocKind),
      rejCountJ m k ≤ rejCountJ (List.foldl jsonStep m evs) k) ∧
    (∀ (m : JMeta) (dt : DocKind) (cm : String) (now : Nat),
      rejCountJ (jsonReview m dt "rejected" cm now) dt = rejCountJ m dt + 1) ∧
    (∀ (m : JMeta) (dt k : DocKind) (cm : String) (now : Nat),
      rejCountJ (jsonReview m dt "approved" cm now) k = rejCountJ m k) := by
  refine ⟨?_, ?_, ?_, ?_, ?_, ?_⟩
  · intro r evs
    induction evs generalizing r with
    | nil => intro k; exact Nat.le_refl _
    | cons e rest ih =>
      intro k
      exact Nat.le_trans (rejCountM_mongoStep_le r e k) (ih (mongoStep r e) k)
  · intro r dt cm now
    simp [mongoReview, rejCountM, getA_setA_self]
  · intro r dt k cm now
    have hne : ¬ ("approved" : String) = "rejected" := by decide
    simp [mongoReview, rejCountM, hne]
  · intro m evs
    induction evs generalizing m with
    | nil => intro k; exact Nat.le_refl _
    | cons e rest ih =>
      intro k
      exact Nat.le_trans (rejCountJ_jsonStep_le m e k) (ih (jsonStep m e) k)
  · intro m dt cm now
    simp [jsonReview, jrRC, rejCountJ, getA_setA_self]
  · intro m dt k cm now
    have hne : ¬ ("approved" : String) = "rejected" := by decide
    simp [jsonReview, jrRC, rejCountJ, hne]

/-- C10: in the MongoDB document-review route, when after applying the
    decision every one of the six tracked kinds has document status rejected,
    the overall status field is left unchanged (the changes-required branch is
    skipped because it requires at least one non-rejected tracked document). -/
theorem claim_C10_all_rejected_status_unchanged (r : MongoApp) (dt : DocKind) (st : String)
    (cm : Option String) (now : Nat)
    (h : ∀ d ∈ mongoTrackedDocs, getA (setA r.documentStatus dt st) d = some "rejected") :
    (mongoReview r dt st cm now).status = r.status := by
  have hR : (mongoTrackedDocs.all fun d =>
      getA (setA r.documentStatus dt st) d == some "rejected") = true := by
    rw [List.all_eq_true]
    intro d hd
    simp [h d hd]
  have hA : (mongoTrackedDocs.all fun d =>
      getA (setA r.documentStatus dt st) d == some "approved") = false := by
    have hp := h .passport (by simp [mongoTrackedDocs])
    rw [List.all_eq_false]
    exact ⟨.passport, by simp [mongoTrackedDocs], by simp [hp]⟩
  simp [mongoReview, hA, hR]

/-- C10 witness: rejecting the sixth tracked document of a record whose five
    other tracked documents are already rejected leaves the overall status at
    its prior value. -/
theorem claim_C10_witness :
    (∀ d ∈ mongoTrackedDocs,
      getA (setA recFiveRejected.documentStatus .experience "rejected") d = some "rejected") ∧
    (mongoReview recFiveRejected .experience "rejected" none 9).status =
      recFiveRejected.status :=
  ⟨by decide, claim_C10_all_rejected_status_unchanged recFiveRejected .experience
    "rejected" none 9 (by decide)⟩

/-- C3: the upload count never exceeds 3 across any event sequence, and an
    upload attempt on a record whose count is already 3 fails with the
    max-uploads error, leaving the stored record unchanged. -/
theorem claim_C3_upload_cap :
    (∀ (r : MongoApp) (evs : List AppEvent), r.uploadCount ≤ 3 →
      (List.foldl mongoStep r evs).uploadCount ≤ 3) ∧
    (∀ (r : MongoApp) (nf : List (DocKind × List FileRec)) (pc pj ai : Option String)
       (now : Nat), r.uploadCount = 3 →
      mongoSubmitUpload r nf pc pj ai now = Except.error UploadErr.maxUploads ∧
      mongoStep r (AppEvent.upload nf pc pj ai now) = r) := by
  constructor
  · intro r evs
    induction evs generalizing r with
    | nil => intro h; exact h
    | cons e rest ih =>
      intro h
      apply ih
      cases e with
      | review dt st cm now => simpa [mongoStep, mongoReview] using h
      | upload nf pc pj ai now =>
        simp only [mongoStep, mongoSubmitUpload]
        by_cases hgt : r.uploadCount + 1 > 3
        · simp [hgt]
          exact h
        · by_cases hnf : nf.isEmpty
          · simp [hgt, hnf]
            exact h
          · simp [hgt, hnf]
            omega
  · intro r nf pc pj ai now h
    have hgt : r.uploadCount + 1 > 3 := by omega
    constructor
    · simp [mongoSubmitUpload, hgt]
    · simp [mongoStep, mongoSubmitUpload, hgt]

/-- C3 witness: on a concrete record at the cap, a fourth upload attempt
    fails and changes nothing, and upload counts stay at most 3. -/
theorem claim_C3_witness :
    recAtCap.uploadCount ≤ 3 ∧
    (List.foldl mongoStep recAtCap
      [AppEvent.upload [(.cv, [fileB])] none none none 7]).uploadCount ≤ 3 ∧
    recAtCap.uploadCount = 3 ∧
    mongoSubmitUpload recAtCap [(.cv, [fileB])] none none none 7 =
      Except.error UploadErr.maxUploads ∧
    mongoStep recAtCap (AppEvent.upload [(.cv, [fileB])] none none none 7) = recAtCap :=
  ⟨by decide,
   claim_C3_upload_cap.1 recAtCap [AppEvent.upload [(.cv, [fileB])] none none none 7]
     (by decide),
   by decide,
   (claim_C3_upload_cap.2 recAtCap [(.cv, [fileB])] none none none 7 (by decide)).1,
   (claim_C3_upload_cap.2 recAtCap [(.cv, [fileB])] none none none 7 (by decide)).2⟩

/-- C5 counterexample: verifying payment on an editing record with no
    pending or verifiable transaction does not fail with a conflict — it
    succeeds and unconditionally produces the paid, editing-paid record. -/
theorem claim_C5_counterexample :
    emNoPending.pendingTransaction = none ∧
    verifyPayment emNoPending (some "TX9") (some "50") 3 =
      { emNoPending with
        paymentStatus := "paid", status := "editing_paid",
        paymentDetails := some
          { transactionId := some "TX9", amount := some "50", verifiedAt := 3 },
        pendingTransaction := none } := by
  decide

/-- C5 (amended): verifyPayment always succeeds on an existing editing
    record — there is no pending-transaction guard — and it is the only
    editing-route operation that can move a record into status editing-paid. -/
theorem claim_C5_only_verify_enters_paid :
    (∀ (m : EMeta) (tid amt : Option String) (now : Nat),
      (verifyPayment m tid amt now).status = "editing_paid" ∧
      (verifyPayment m tid amt now).paymentStatus = "paid") ∧
    (∀ (m : EMeta) (op : EditOp), m.status ≠ "editing_paid" →
      (editStep m op).status = "editing_paid" →
      ∃ tid amt now, op = EditOp.verifyPay tid amt now) := by
  constructor
  · intro m tid amt now
    exact ⟨rfl, rfl⟩
  · intro m op h1 h2
    cases op with
    | submitPay tid =>
      exact absurd h2 (by simpa [editStep, submitPayment] using h1)
    | uploadEd cvF coverF =>
      exfalso
      simp only [editStep, uploadEdited] at h2
      rcases ite_eq_iff.mp h2 with ⟨_, h⟩ | ⟨_, h⟩
      · exact absurd h (by decide)
      · exact absurd h (by decide)
    | verifyPay tid amt now => exact ⟨tid, amt, now, rfl⟩

/-- C5 witness: verifying payment on the concrete unpaid record yields the
    paid status, and a concrete transition into editing-paid is classified as
    a verify-payment request. -/
theorem claim_C5_witness :
    ((verifyPayment emNoPending none none 0).status = "editing_paid" ∧
     (verifyPayment emNoPending none none 0).paymentStatus = "paid") ∧
    (∃ tid amt now,
      EditOp.verifyPay (some "TX9") (some "50") 3 = EditOp.verifyPay tid amt now) :=
  ⟨claim_C5_only_verify_enters_paid.1 emNoPending none none 0,
   claim_C5_only_verify_enters_paid.2 emNoPending (EditOp.verifyPay (some "TX9") (some "50") 3)
     (by decide) (by decide)⟩

/-- C1 counterexample: in the MongoDB review route, rejecting the required
    cv on a record with no other rejected document sets the overall status to
    changes-required but leaves the re-upload request list empty — no new
    pending re-upload request for the singleton cv set is created. -/
theorem claim_C1_counterexample :
    DocKind.cv ∈ requiredDocs ∧
    recFresh.reuploadRequests = [] ∧
    recFresh.documentStatus = [] ∧
    (mongoReview recFresh .cv "rejected" (some "blurry") 5).status = "changes-required" ∧
    (mongoReview recFresh .cv "rejected" (some "blurry") 5).reuploadRequests = [] := by
  decide

/-- C2 counterexample: in the MongoDB review route, approving the four
    required documents of a record whose optional kinds were never uploaded
    leaves the overall status at received instead of documents-approved,
    because the route requires approvals for all six tracked kinds. -/
theorem claim_C2_counterexample :
    getA recFresh.uploadedFiles .coverLetter = none ∧
    getA recFresh.uploadedFiles .experience = none ∧
    (∀ d ∈ requiredDocs,
      (getA (List.foldl mongoStep recFresh
        [AppEvent.review .passport "approved" none 1, AppEvent.review .photo "approved" none 2,
         AppEvent.review .cv "approved" none 3,
         AppEvent.review .qualifications "approved" none 4]).documentReviews d).map
        MongoReview.status = some "approved") ∧
    (List.foldl mongoStep recFresh
      [AppEvent.review .passport "approved" none 1, AppEvent.review .photo "approved" none 2,
       AppEvent.review .cv "approved" none 3,
       AppEvent.review .qualifications "approved" none 4]).status = "received" := by
  decide

/-- C4 counterexample: the MongoDB request-reupload route succeeds and
    appends a duplicate request even though no requested kind is rejected and
    an identical pending request already exists. -/
theorem claim_C4_counterexample :
    recPendingNoRejects.documentReviews = [] ∧
    recPendingNoRejects.reuploadRequests.length = 1 ∧
    (recPendingNoRejects.reuploadRequests.map ReuploadReq.documents) = [[DocKind.passport]] ∧
    (mongoRequestReupload recPendingNoRejects [.passport] "again" 8).status
      = "reupload-requested" ∧
    (mongoRequestReupload recPendingNoRejects [.passport] "again" 8).reuploadRequests.length
      = 2 := by
  decide

/-- C7 counterexample: approving the previously rejected passport removes
    the pending re-upload request from the list entirely — it is deleted by
    the review event rather than retained with status completed. -/
theorem claim_C7_counterexample :
    jmPassportRejected.reuploadRequests.length = 1 ∧
    (jmPassportRejected.reuploadRequests.map ReuploadReq.status) = ["pending"] ∧
    (jsonReview jmPassportRejected .passport "approved" "" 2).reuploadRequests = [] := by
  decide

/-- C8 counterexample: a successful re-upload of a passport file replaces
    the previously stored passport file record instead of appending to it. -/
theorem claim_C8_counterexample :
    getA recOnePassport.uploadedFiles .passport = some [fileA] ∧
    fileA ≠ fileB ∧
    (mongoStep recOnePassport
      (AppEvent.upload [(.passport, [fileB])] none none none 7)).uploadCount = 2 ∧
    getA (mongoStep recOnePassport
      (AppEvent.upload [(.passport, [fileB])] none none none 7)).uploadedFiles .passport
      = some [fileB] := by
  decide

/-- C4 (amended): in the JSON request-reupload route, the request fails when
    none of the given kinds has a rejected review, and when an identical
    order-independent pending request already exists the route succeeds
    without appending a duplicate.  (The MongoDB route has neither check.) -/
theorem claim_C4_request_reupload_guard (m : JMeta) (docs : List DocKind) (msg : String)
    (now : Nat) :
    ((∀ d ∈ docs, ¬ jReviewStatus m.documentReviews d = some "rejected") →
      jsonRequestReupload m docs msg now =
        Except.error "No rejected documents selected for re-upload") ∧
    (∀ q ∈ m.reuploadRequests, q.status = "pending" →
      sortKinds q.documents =
        sortKinds (docs.filter fun d => jReviewStatus m.documentReviews d == some "rejected") →
      (docs.filter fun d => jReviewStatus m.documentReviews d == some "rejected").isEmpty
        = false →
      jsonRequestReupload m docs msg now =
        Except.ok { m with
          reuploadRequests := m.reuploadRequests, status := "reupload-requested" }) := by
  constructor
  · intro h
    have hfil : (docs.filter fun d => jReviewStatus m.documentReviews d == some "rejected")
        = [] := by
      rw [List.filter_eq_nil_iff]
      intro d hd
      simp [h d hd]
    simp [jsonRequestReupload, hfil]
  · intro q hq hqp hqs hne
    have hdup : (m.reuploadRequests.any fun q =>
        q.status == "pending" && sortKinds q.documents ==
          sortKinds (docs.filter fun d =>
            jReviewStatus m.documentReviews d == some "rejected")) = true := by
      rw [List.any_eq_true]
      exact ⟨q, hq, by simp [hqp, hqs]⟩
    simp [jsonRequestReupload, hne, hdup]

/-- C4 witness: on concrete records, requesting re-upload of an unrejected
    passport fails, and re-requesting the already-requested rejected cv
    returns success with the request list unchanged. -/
theorem claim_C4_witness :
    jsonRequestReupload jmFresh [.passport] "please" 9 =
      Except.error "No rejected documents selected for re-upload" ∧
    jsonRequestReupload jmCvRejected [.cv] "please" 9 =
      Except.ok { jmCvRejected with
        reuploadRequests := jmCvRejected.reuploadRequests,
        status := "reupload-requested" } :=
  ⟨(claim_C4_request_reupload_guard jmFresh [.passport] "please" 9).1 (by decide),
   (claim_C4_request_reupload_guard jmCvRejected [.cv] "please" 9).2
     { documents := [.cv], message := "blurry", requestedAt := 1,
       status := "pending", completedAt := none, rejectionCount := [] }
     (by decide) (by decide) (by decide) (by decide)⟩

/-- C6: generating a download token fails before the payment status is paid;
    once paid, the minted token serves exactly one successful download and a
    second use of the same token is rejected as invalid. -/
theorem claim_C6_token_lifecycle :
    (∀ (m : EMeta) (em tok : String) (now : Nat) (store : TokenStore),
      m.paymentStatus ≠ "paid" →
      genToken m em tok now store = Except.error "Payment not verified") ∧
    (∀ (m : EMeta) (em tok : String) (now t1 t2 : Nat) (store store' : TokenStore)
       (fe : String → Bool) (f : EFile),
      m.paymentStatus = "paid" → m.editedCv = some f → fe f.path = true →
      t1 ≤ now + 60 * 60 * 1000 →
      genToken m em tok now store = Except.ok store' →
      (downloadFile store' fe t1 tok "cv").2 = Except.ok f.path ∧
      (downloadFile (downloadFile store' fe t1 tok "cv").1 fe t2 tok "cv").2 =
        Except.error "Invalid or expired token") ∧
    (∀ (m : EMeta) (em tok : String) (now : Nat) (store : TokenStore),
      m.paymentStatus = "paid" →
      ∃ store', genToken m em tok now store = Except.ok store') := by
  refine ⟨?_, ?_, ?_⟩
  · intro m em tok now store h
    simp [genToken, h]
  · intro m em tok now t1 t2 store store' fe f hpaid hcv hfe ht1 hgen
    have hcond : ¬ m.paymentStatus ≠ "paid" := by simp [hpaid]
    have hstore' : store' = setA store tok
        { email := em, expiresAt := now + 60 * 60 * 1000, used := false,
          cvPath := m.editedCv.map EFile.path, coverPath := m.editedCover.map EFile.path } := by
      simp [genToken, hcond] at hgen
      exact hgen.symm
    have hget : getA store' tok = some
        { email := em, expiresAt := now + 60 * 60 * 1000, used := false,
          cvPath := m.editedCv.map EFile.path, coverPath := m.editedCover.map EFile.path } := by
      rw [hstore']
      exact getA_setA_self _ _ _
    have hnotlt : ¬ (now + 60 * 60 * 1000 < t1) := Nat.not_lt.mpr ht1
    have h1 : downloadFile store' fe t1 tok "cv" = (eraseA store' tok, Except.ok f.path) := by
      simp [downloadFile, hget, tokenFileFor, hcv, hfe, hnotlt]
    refine ⟨by rw [h1], ?_⟩
    rw [h1]
    have hget2 : getA (eraseA store' tok) tok = none := getA_eraseA_self _ _
    simp [downloadFile, hget2]
  · intro m em tok now store h
    have hcond : ¬ m.paymentStatus ≠ "paid" := by simp [h]
    refine ⟨setA store tok
      { email := em, expiresAt := now + 60 * 60 * 1000, used := false,
        cvPath := m.editedCv.map EFile.path,
        coverPath := m.editedCover.map EFile.path }, ?_⟩
    simp [genToken, hcond]

/-- C6 witness: on a concrete record, token generation is refused while
    unpaid; after verification a concrete token downloads the cv once and is
    rejected on reuse. -/
theorem claim_C6_witness :
    genToken emNoPending "e" "t0" 0 [] = Except.error "Payment not verified" ∧
    ((downloadFile [("t0",
        { email := "e", expiresAt := 0 + 60 * 60 * 1000, used := false,
          cvPath := some "p/final_cv.pdf", coverPath := none })]
        (fun _ => true) 0 "t0" "cv").2 = Except.ok "p/final_cv.pdf" ∧
     (downloadFile (downloadFile [("t0",
        { email := "e", expiresAt := 0 + 60 * 60 * 1000, used := false,
          cvPath := some "p/final_cv.pdf", coverPath := none })]
        (fun _ => true) 0 "t0" "cv").1 (fun _ => true) 1 "t0" "cv").2 =
      Except.error "Invalid or expired token") ∧
    (∃ store', genToken emPaid "e" "t0" 0 [] = Except.ok store') :=
  ⟨claim_C6_token_lifecycle.1 emNoPending "e" "t0" 0 [] (by decide),
   claim_C6_token_lifecycle.2.1 emPaid "e" "t0" 0 0 1 []
     [("t0", { email := "e", expiresAt := 0 + 60 * 60 * 1000, used := false,
               cvPath := some "p/final_cv.pdf", coverPath := none })]
     (fun _ => true) { filename := "final_cv.pdf", path := "p/final_cv.pdf" }
     rfl rfl rfl (by omega) rfl,
   claim_C6_token_lifecycle.2.2 emPaid "e" "t0" 0 [] rfl⟩

theorem getA_mergeFiles (old new : List (DocKind × List FileRec))
    (hnd : (new.map Prod.fst).Nodup) (k : DocKind) :
    getA (mergeFiles old new) k =
      match getA new k with
      | some v => some v
      | none => getA old k := by
  induction new generalizing old with
  | nil => simp [mergeFiles, getA]
  | cons p rest ih =>
    rw [List.map_cons] at hnd
    have hcons := List.nodup_cons.mp hnd
    have hmf : mergeFiles old (p :: rest) = mergeFiles (setA old p.1 p.2) rest := by
      simp [mergeFiles]
    rw [hmf, ih _ hcons.2]
    by_cases hk : p.1 = k
    · subst hk
      have hrest : getA rest p.1 = none := getA_eq_none_of_not_mem hcons.1
      simp [getA, hrest, getA_setA_self]
    · have hpk : getA (p :: rest) k = getA rest k := by simp [getA, hk]
      rw [hpk]
      cases hgr : getA rest k with
      | none => simp [getA_setA_ne old p.1 k p.2 (fun hh => hk hh.symm)]
      | some v => simp

/-- C8 (amended): a successful submitUpload replaces the per-kind file list
    of every kind present in the upload with the new list and leaves the
    lists of kinds not touched by the upload unchanged. -/
theorem claim_C8_upload_merge (r : MongoApp) (newFiles : List (DocKind × List FileRec))
    (pc pj ai : Option String) (now : Nat)
    (hcap : r.uploadCount + 1 ≤ 3) (hne : newFiles.isEmpty = false)
    (hnd : (newFiles.map Prod.fst).Nodup) :
    mongoSubmitUpload r newFiles pc pj ai now =
      Except.ok (mongoStep r (AppEvent.upload newFiles pc pj ai now)) ∧
    ∀ k, getA (mongoStep r (AppEvent.upload newFiles pc pj ai now)).uploadedFiles k =
      match getA newFiles k with
      | some v => some v
      | none => getA r.uploadedFiles k := by
  have hgt : ¬ (r.uploadCount + 1 > 3) := by omega
  constructor
  · simp [mongoStep, mongoSubmitUpload, hgt, hne]
  · intro k
    have hfiles : (mongoStep r (AppEvent.upload newFiles pc pj ai now)).uploadedFiles =
        mergeFiles r.uploadedFiles newFiles := by
      simp [mongoStep, mongoSubmitUpload, hgt, hne]
    rw [hfiles]
    exact getA_mergeFiles _ _ hnd k

/-- C8 witness: on a concrete one-passport record, uploading a cv file
    succeeds, adds the cv list and leaves the passport list unchanged. -/
theorem claim_C8_witness :
    mongoSubmitUpload recOnePassport [(.cv, [fileB])] none none none 7 =
      Except.ok (mongoStep recOnePassport (AppEvent.upload [(.cv, [fileB])] none none none 7)) ∧
    getA (mongoStep recOnePassport
      (AppEvent.upload [(.cv, [fileB])] none none none 7)).uploadedFiles .passport
      = some [fileA] ∧
    getA (mongoStep recOnePassport
      (AppEvent.upload [(.cv, [fileB])] none none none 7)).uploadedFiles .cv
      = some [fileB] :=
  ⟨(claim_C8_upload_merge recOnePassport [(.cv, [fileB])] none none none 7
      (by decide) (by decide) (by decide)).1,
   (claim_C8_upload_merge recOnePassport [(.cv, [fileB])] none none none 7
      (by decide) (by decide) (by decide)).2 .passport,
   (claim_C8_upload_merge recOnePassport [(.cv, [fileB])] none none none 7
      (by decide) (by decide) (by decide)).2 .cv⟩

/-- C7 (amended): after a JSON review event, every surviving pending
    re-upload request still targets at least one currently rejected kind, and
    every request that was completed before the event is still present; a
    pending request with no remaining rejected document is deleted by the
    prune filter rather than retained with status completed. -/
theorem claim_C7_prune_behavior (m : JMeta) (dt : DocKind) (st : String) (cm : String)
    (now : Nat) :
    (∀ q ∈ (jsonReview m dt st cm now).reuploadRequests, q.status = "pending" →
      ∃ d ∈ q.documents,
        jReviewStatus (jsonReview m dt st cm now).documentReviews d = some "rejected") ∧
    (∀ q ∈ m.reuploadRequests, q.status = "completed" →
      q ∈ (jsonReview m dt st cm now).reuploadRequests) := by
  constructor
  · intro q hq hqp
    have hbq : (q.status == "pending") = true := by
      rw [hqp]
      decide
    simp only [jsonReview] at hq ⊢
    have h2 := (List.mem_filter.mp hq).2
    simp only [hbq, if_true] at h2
    simp [List.any_eq_true] at h2
    obtain ⟨d, hd, hd2⟩ := h2
    exact ⟨d, hd, hd2⟩
  · intro q hq hqc
    have hbq : (q.status == "pending") = false := by
      rw [hqc]
      decide
    have hnp : ¬ q.status = "pending" := by
      rw [hqc]
      decide
    simp only [jsonReview, jrReqs1]
    refine List.mem_filter.mpr ⟨?_, by simp [hbq]⟩
    repeat' split
    all_goals first
      | exact hq
      | exact List.mem_append_left _ hq
      | exact List.mem_map.mpr ⟨q, hq, if_neg hnp⟩

/-- C7 witness: on a concrete record where the cv is rejected and the photo
    is now also rejected, the surviving pending cv request indeed targets a
    still-rejected kind. -/
theorem claim_C7_witness :
    ∃ d ∈ [DocKind.cv],
      jReviewStatus (jsonReview jmCvRejected .photo "rejected" "" 3).documentReviews d =
        some "rejected" :=
  (claim_C7_prune_behavior jmCvRejected .photo "rejected" "" 3).1
    { documents := [.cv], message := "blurry", requestedAt := 1,
      status := "pending", completedAt := none, rejectionCount := [] }
    (by decide) (by decide)

theorem filter_rejected_setA (l : List (DocKind × JReview)) (k : DocKind) (rv : JReview)
    (h : ∀ p ∈ l, ¬ p.2.status = "rejected") (hrv : rv.status = "rejected") :
    (setA l k rv).filter (fun p => p.2.status == "rejected") = [(k, rv)] := by
  induction l with
  | nil => simp [setA, hrv]
  | cons p rest ih =>
    have hrest : ∀ q ∈ rest, ¬ q.2.status = "rejected" :=
      fun q hq => h q (List.mem_cons_of_mem _ hq)
    have hrestnil : rest.filter (fun p => p.2.status == "rejected") = [] := by
      rw [List.filter_eq_nil_iff]
      intro q hq
      simp [hrest q hq]
    have hphead : ¬ p.2.status = "rejected" := h p (List.mem_cons_self _ _)
    by_cases hk : p.1 = k
    · simp [setA, hk, hrv, hrestnil]
    · simp [setA, hk, hphead, ih hrest]

theorem length_filter_append_single {α : Type} (l : List α) (a : α) (p q : α → Bool)
    (hl : ∀ x ∈ l, q x = false) (hpa : p a = true) (hqa : q a = true) :
    (((l ++ [a]).filter p).filter q).length = 1 := by
  have h3 : (l.filter p).filter q = [] := by
    rw [List.filter_eq_nil_iff]
    intro x hx
    simp [hl x (List.mem_of_mem_filter hx)]
  have hshape : ((l ++ [a]).filter p).filter q = [a] := by
    rw [List.filter_append, List.filter_append, h3]
    simp [hpa, hqa]
  rw [hshape]
  rfl

/-- C1 (amended): in the JSON review route, rejecting a required document
    when no document was previously rejected and no identical pending request
    exists sets the overall status to changes-required and leaves exactly one
    pending re-upload request whose document list is the singleton of that
    kind.  (The MongoDB route sets the status but creates no request.) -/
theorem claim_C1_single_rejection (m : JMeta) (k : DocKind) (cm : String) (now : Nat)
    (hreq : k ∈ requiredDocs)
    (hnone : ∀ p ∈ m.documentReviews, ¬ p.2.status = "rejected")
    (hnop : ∀ q ∈ m.reuploadRequests,
      ¬ (q.status = "pending" ∧ sortKinds q.documents = [k])) :
    (jsonReview m k "rejected" cm now).status = "changes-required" ∧
    ((jsonReview m k "rejected" cm now).reuploadRequests.filter fun q =>
      q.status == "pending" && q.documents == [k]).length = 1 := by
  have hrvst : (jrNewReview m k "rejected" cm now).status = "rejected" := rfl
  have hfil := filter_rejected_setA m.documentReviews k
    (jrNewReview m k "rejected" cm now) hnone hrvst
  have hdocs : jrDocsNeeding m k "rejected" cm now = [k] := by
    simp only [jrDocsNeeding, jrReviews]
    rw [hfil]
    rfl
  have hany : jrHasRejections m k "rejected" cm now = true := by
    simp only [jrHasRejections, jrReviews]
    rw [List.any_eq_true]
    exact ⟨_, mem_setA_self m.documentReviews k _, rfl⟩
  have hsort : sortKinds [k] = [k] := rfl
  have hpend : jrHasPending m k "rejected" cm now = false := by
    simp only [jrHasPending, hdocs]
    rw [List.any_eq_false]
    intro q hq
    have hn := hnop q hq
    by_cases h1 : q.status = "pending"
    · by_cases h2 : sortKinds q.documents = [k]
      · exact absurd ⟨h1, h2⟩ hn
      · simp [h2, hsort]
    · simp [h1]
  have hstat : jrStatus m k "rejected" cm now = "changes-required" := by
    simp [jrStatus, hany]
  have hreqs1 : jrReqs1 m k "rejected" cm now =
      m.reuploadRequests ++ [jrNewReq m k "rejected" cm now] := by
    simp [jrReqs1, hany, hdocs, hpend]
  constructor
  · simp [jsonReview, hstat]
  · have hC1 : ∀ a ∈ m.reuploadRequests,
        (a.status == "pending" && a.documents == ([k] : List DocKind)) = false := by
      intro a ha
      have hn := hnop a ha
      by_cases h1 : a.status = "pending"
      · by_cases h2 : a.documents = [k]
        · refine absurd ⟨h1, ?_⟩ hn
          rw [h2]
          rfl
        · simp [h2]
      · simp [h1]
    have hgoal : (jsonReview m k "rejected" cm now).reuploadRequests =
        ((m.reuploadRequests ++ [jrNewReq m k "rejected" cm now]).filter fun q =>
          if q.status == "pending" then
            q.documents.any fun d =>
              jReviewStatus (jrReviews m k "rejected" cm now) d == some "rejected"
          else true) := by
      simp only [jsonReview, hreqs1]
    rw [hgoal]
    apply length_filter_append_single
    · exact hC1
    · simp [jrNewReq, hdocs, jReviewStatus, jrReviews, getA_setA_self, hrvst]
    · simp [jrNewReq, hdocs]

/-- C1 witness: rejecting the cv on a fresh record yields status
    changes-required and exactly one pending request for the cv alone. -/
theorem claim_C1_witness :
    (jsonReview jmFresh .cv "rejected" "blurry" 5).status = "changes-required" ∧
    ((jsonReview jmFresh .cv "rejected" "blurry" 5).reuploadRequests.filter fun q =>
      q.status == "pending" && q.documents == [DocKind.cv]).length = 1 :=
  claim_C1_single_rejection jmFresh .cv "blurry" 5 (by decide)
    (by intro p hp; simp [jmFresh] at hp) (by intro q hq; simp [jmFresh] at hq)

/-- C2 (amended): in the JSON review route, an approval event after which no
    review is rejected, all four required kinds are approved, and every
    optional kind is absent or approved, yields overall status
    documents-approved; every previously pending re-upload request is still
    present with status completed, and no pending request remains.  Optional
    kinds that were never uploaded are not needed.  (The MongoDB route
    instead requires approvals for all six tracked kinds.) -/
theorem claim_C2_all_approved (m : JMeta) (k : DocKind) (cm : String) (now : Nat)
    (hnone : ∀ p ∈ jrReviews m k "approved" cm now, ¬ p.2.status = "rejected")
    (hreq : ∀ d ∈ requiredDocs, d ≠ k → jReviewStatus m.documentReviews d = some "approved")
    (hopt : ∀ d ∈ optionalDocs, d ≠ k →
      getA m.uploadedFiles d = none ∨ jReviewStatus m.documentReviews d = some "approved") :
    (jsonReview m k "approved" cm now).status = "documents-approved" ∧
    (∀ q ∈ m.reuploadRequests, q.status = "pending" →
      { q with status := "completed", completedAt := some now } ∈
        (jsonReview m k "approved" cm now).reuploadRequests) ∧
    (∀ q ∈ (jsonReview m k "approved" cm now).reuploadRequests,
      ¬ q.status = "pending") := by
  have hanyf : jrHasRejections m k "approved" cm now = false := by
    simp only [jrHasRejections]
    rw [List.any_eq_false]
    intro p hp
    simp [hnone p hp]
  have hallreq : jrAllReq m k "approved" cm now = true := by
    simp only [jrAllReq]
    rw [List.all_eq_true]
    intro d hd
    by_cases hdk : d = k
    · subst hdk
      simp [jReviewStatus, jrReviews, getA_setA_self, jrNewReview]
    · have hgd : getA (jrReviews m k "approved" cm now) d = getA m.documentReviews d := by
        simp only [jrReviews]
        exact getA_setA_ne _ _ _ _ hdk
      have hr := hreq d hd hdk
      simp only [jReviewStatus] at hr ⊢
      rw [hgd, hr]
      decide
  have hoptok : jrOptOk m k "approved" cm now = true := by
    simp only [jrOptOk]
    rw [List.all_eq_true]
    intro d hd
    by_cases hdk : d = k
    · subst hdk
      simp [jReviewStatus, jrReviews, getA_setA_self, jrNewReview]
    · have hgd : getA (jrReviews m k "approved" cm now) d = getA m.documentReviews d := by
        simp only [jrReviews]
        exact getA_setA_ne _ _ _ _ hdk
      rcases hopt d hd hdk with h | h
      · simp [h]
      · simp only [jReviewStatus] at h ⊢
        rw [hgd, h]
        simp
  have hstat : jrStatus m k "approved" cm now = "documents-approved" := by
    simp [jrStatus, hanyf, hallreq, hoptok]
  have hreqs1 : jrReqs1 m k "approved" cm now =
      m.reuploadRequests.map fun q =>
        if q.status = "pending" then { q with status := "completed", completedAt := some now }
        else q := by
    simp [jrReqs1, hanyf, hallreq, hoptok]
  refine ⟨?_, ?_, ?_⟩
  · simp [jsonReview, hstat]
  · intro q hq hqp
    have hb : (("completed" : String) == "pending") = false := by decide
    simp only [jsonReview, hreqs1]
    refine List.mem_filter.mpr ⟨?_, ?_⟩
    · exact List.mem_map.mpr ⟨q, hq, if_pos hqp⟩
    · simp [hb]
  · intro q' hq'
    simp only [jsonReview, hreqs1] at hq'
    obtain ⟨q, hq, heq⟩ := List.mem_map.mp (List.mem_filter.mp hq').1
    by_cases h1 : q.status = "pending"
    · rw [← heq, if_pos h1]
      show ¬ ("completed" : String) = "pending"
      decide
    · rw [← heq, if_neg h1]
      exact h1

/-- C2 witness: approving the previously rejected cv on a record whose other
    required kinds are approved and whose optional kinds were never uploaded
    yields documents-approved, completes the pending cv request, and leaves
    no pending request. -/
theorem claim_C2_witness :
    (jsonReview jmCvRejected .cv "approved" "" 6).status = "documents-approved" ∧
    ({ documents := [DocKind.cv], message := "blurry", requestedAt := 1,
       status := "completed", completedAt := some 6,
       rejectionCount := [] } : ReuploadReq) ∈
      (jsonReview jmCvRejected .cv "approved" "" 6).reuploadRequests ∧
    (∀ q ∈ (jsonReview jmCvRejected .cv "approved" "" 6).reuploadRequests,
      ¬ q.status = "pending") :=
  ⟨(claim_C2_all_approved jmCvRejected .cv "" 6 (by decide) (by decide) (by decide)).1,
   (claim_C2_all_approved jmCvRejected .cv "" 6 (by decide) (by decide) (by decide)).2.1
     { documents := [DocKind.cv], message := "blurry", requestedAt := 1,
       status := "pending", completedAt := none, rejectionCount := [] }
     (by decide) (by decide),
   (claim_C2_all_approved jmCvRejected .cv "" 6 (by decide) (by decide) (by decide)).2.2⟩

end Apex
